import Mathlib

/-!
Verification of the grpc-proxy `proxy` package (`handler.go`).

The Go source is shallowly embedded: gRPC metadata (`metadata.MD`,
a `map[string][]string` with lowercased keys) becomes an association
list; a `context.Context` is modelled by the per-call values the code
reads from it (incoming metadata, outgoing metadata, peer address);
the stream handler `(*handler).handler` becomes a pure function from
the director's answer and the environment's outcomes (stream
establishment, relay) to a trace of its observable effects (returned
error, cancel invocations, outbound stream parameters, completion
callback invocation).
-/

set_option autoImplicit false

namespace GrpcProxy

/-- Go `metadata.MD` (`map[string][]string`): association list from
(lowercased) keys to value lists; keys are unique in maps built by the code. -/
abbrev MD := List (String × List String)

/-- Map lookup `md[k]` (first matching key). -/
def mdGet (md : MD) (k : String) : Option (List String) :=
  match md with
  | [] => none
  | (k1, vs) :: rest => if k1 = k then some vs else mdGet rest k

/-- Core of Go `md.Append(k, v)` after key normalization:
`md[k] = append(md[k], v)` — extends the value list of `k`, or adds the
key when absent. -/
def mdAppendKey (md : MD) (k : String) (v : String) : MD :=
  match md with
  | [] => [(k, [v])]
  | (k1, vs) :: rest =>
    if k1 = k then (k1, vs ++ [v]) :: rest
    else (k1, vs) :: mdAppendKey rest k v

/-- Go `strings.ToLower` on the ASCII strings the code handles:
lowercase character by character. -/
def lowerString (s : String) : String := String.mk (s.data.map Char.toLower)

/-- Go `metadata.MD.Append(k, v)`: lowercases the key, then appends. -/
def mdAppend (md : MD) (k v : String) : MD := mdAppendKey md (lowerString k) v

/-- Go `metadata.Pairs(k, v)`: singleton metadata with lowercased key. -/
def mdPairs (k v : String) : MD := [(lowerString k, [v])]

/-- Go `md.Copy()`: a fresh copy; in the pure model the same value
(the original is untouched by construction). -/
def mdCopy (md : MD) : MD := md

/-- A connection-level peer address (`net.Addr`): either a `*net.TCPAddr`
(where `addr.IP.String()` yields the IP literal) or some other address
whose `String()` form is `other s`. -/
inductive Addr where
  | tcp (ip : String) (port : Nat)
  | other (s : String)
deriving DecidableEq

/-- The per-call values `handler.go` reads from a `context.Context`:
incoming metadata (`metadata.FromIncomingContext`), outgoing metadata
(`metadata.FromOutgoingContext`), and the peer (`peer.FromContext`). -/
structure Context where
  incomingMD : Option MD
  outgoingMD : Option MD
  peer : Option Addr
deriving DecidableEq

/-- `metadata.NewOutgoingContext(ctx, md)`: the context with its
outgoing metadata replaced by `md`. -/
def newOutgoingContext (ctx : Context) (md : MD) : Context :=
  { ctx with outgoingMD := some md }

/-- Index of the last occurrence of `c` in a character list, if any. -/
def lastIndexOfChar (l : List Char) (c : Char) : Option Nat :=
  match l with
  | [] => none
  | x :: xs =>
    match lastIndexOfChar xs c with
    | some i => some (i + 1)
    | none => if x = c then some 0 else none

/-- Go `strings.LastIndex(s, string(c))` (single-character needle);
Go's `-1` becomes `none`. Addresses are ASCII, so byte and character
indices coincide. -/
def stringLastIndex (s : String) (c : Char) : Option Nat :=
  lastIndexOfChar s.data c

/-- Go `s[:i]` on ASCII strings: the first `i` characters. -/
def stringTake (s : String) (i : Nat) : String := String.mk (s.data.take i)

/-- Go `RemoteIp(ctx)`: `""` without peer information; the IP literal of
a `*net.TCPAddr`; otherwise the `String()` form truncated at its last
colon (the whole string when it has no colon). -/
def RemoteIp (ctx : Context) : String :=
  match ctx.peer with
  | none => ""
  | some a =>
    match a with
    | Addr.tcp ip _ => ip
    | Addr.other s =>
      match stringLastIndex s ':' with
      | none => s
      | some i => stringTake s i

/-- The forwarded-address metadata key (`const XForwardedFor`). -/
def XForwardedFor : String := "X-Forwarded-For"

/-- Go `CopyMetadata(ctx, serverCtx)`: copy the server context's
incoming metadata (appending the peer IP under `XForwardedFor` when
derivable) into `ctx` as outgoing metadata; without incoming metadata,
attach just the forwarded-address pair, or return `ctx` unchanged when
no address is derivable either. -/
def CopyMetadata (ctx : Context) (serverCtx : Context) : Context :=
  let remoteIp := RemoteIp serverCtx
  match serverCtx.incomingMD with
  | some md0 =>
    let md1 := mdCopy md0
    let md2 := if remoteIp.length ≠ 0 then mdAppend md1 XForwardedFor remoteIp else md1
    newOutgoingContext ctx md2
  | none =>
    if remoteIp.length = 0 then ctx
    else newOutgoingContext ctx (mdPairs XForwardedFor remoteIp)

/-- A Go `error` value: `io.EOF` is the distinguished end-of-stream
error; every other non-nil error carries its message. A nullable error
is `Option GoError`. -/
inductive GoError where
  | eof
  | other (msg : String)
deriving DecidableEq

/-- Modelled from the spec: the Routing Decision struct returned by the
`StreamDirector` (the source file declaring it is absent from the tree);
its fields are fixed by the uses in `handler.go` — `dir.Method` (optional
method-name override, empty when absent), `dir.BackendConn` (opaque
backend connection handle), `dir.Done` (optional completion callback,
here just its presence, since the trace records the invocation). -/
structure Dir where
  Method : String
  BackendConn : Nat
  hasDone : Bool
deriving DecidableEq

/-- The four values a `StreamDirector` call returns:
`(clientCtx, clientCancel, dir, err)`; the cancellation function is
modelled by its presence (`hasCancel`). -/
structure DirectorResult where
  clientCtx : Context
  hasCancel : Bool
  dir : Dir
  err : Option GoError
deriving DecidableEq

/-- A `StreamDirector`: invoked with the inbound context and the
fully-qualified method name. -/
abbrev StreamDirector := Context → String → DirectorResult

/-- Outcomes of the two effectful gRPC operations the handler performs
after routing: the error of `grpc.NewClientStream` (none = stream
established) and the error `biDirCopy` ends with. -/
structure Env where
  newClientStreamErr : Option GoError
  biDirCopyErr : Option GoError
deriving DecidableEq

/-- The observable effects of one `(*handler).handler` call:
the returned error, how many times the effective cancellation function
ran by return time, whether the core had to derive that function via
`context.WithCancel`, the context/connection/method passed to
`grpc.NewClientStream` (none when it was never called), whether the
relay phase ran, and the argument `dir.Done` was invoked with
(`none` when `dir.Done` was never invoked). -/
structure HandlerTrace where
  ret : Option GoError
  cancelCalls : Nat
  usedDerivedCancel : Bool
  openedCtx : Option Context
  openedConn : Option Nat
  openedMethod : Option String
  relayRan : Bool
  doneCalledWith : Option (Option GoError)
deriving DecidableEq

/-- `(*handler).handler` applied to an already-obtained
`DirectorResult`: the body after the `h.director(...)` call. -/
def handlerCore (serverCtx : Context) (fullMethodName : String)
    (d : DirectorResult) (env : Env) : HandlerTrace :=
  match d.err with
  | some e =>
    { ret := some e, cancelCalls := 0, usedDerivedCancel := false,
      openedCtx := none, openedConn := none, openedMethod := none,
      relayRan := false, doneCalledWith := none }
  | none =>
    -- if clientCancel == nil { clientCtx, clientCancel = context.WithCancel(clientCtx) }
    -- WithCancel preserves every value the model tracks, so the context value is unchanged.
    let derived := !d.hasCancel
    -- deferred clientCancel() runs exactly once on every path below.
    let clientCtx :=
      match d.clientCtx.outgoingMD with
      | some _ => d.clientCtx
      | none => CopyMetadata d.clientCtx serverCtx
    let methodName := if d.dir.Method.length ≠ 0 then d.dir.Method else fullMethodName
    match env.newClientStreamErr with
    | some e =>
      { ret := some e, cancelCalls := 1, usedDerivedCancel := derived,
        openedCtx := some clientCtx, openedConn := some d.dir.BackendConn,
        openedMethod := some methodName, relayRan := false, doneCalledWith := none }
    | none =>
      let e0 := env.biDirCopyErr
      let e1 := if e0 = some GoError.eof then none else e0
      { ret := e1, cancelCalls := 1, usedDerivedCancel := derived,
        openedCtx := some clientCtx, openedConn := some d.dir.BackendConn,
        openedMethod := some methodName, relayRan := true,
        doneCalledWith := if d.dir.hasDone then some e1 else none }

/-- `(*handler).handler(srv, serverStream)`: reads the server context
and method name from the stream, invokes the director once, then runs
the core. -/
def handler (serverCtx : Context) (fullMethodName : String)
    (director : StreamDirector) (env : Env) : HandlerTrace :=
  handlerCore serverCtx fullMethodName (director serverCtx fullMethodName) env

/-! ### Concrete instances used in witnesses and counterexamples -/

/-- Inbound server context of the spec's metadata-forwarding example:
metadata `k: v`, caller `203.0.113.5:54321`. -/
def exServerCtx : Context :=
  { incomingMD := some [("k", ["v"])], outgoingMD := none,
    peer := some (Addr.tcp "203.0.113.5" 54321) }

/-- A fresh outgoing context carrying nothing. -/
def exClientCtx : Context := { incomingMD := none, outgoingMD := none, peer := none }

/-- An outgoing context on which the Director already set metadata. -/
def exCtxWithOutMD : Context :=
  { incomingMD := none, outgoingMD := some [("a", ["b"])], peer := none }

/-- Server context without metadata but with a (non-TCP) peer address. -/
def exScPeerOnly : Context :=
  { incomingMD := none, outgoingMD := none, peer := some (Addr.other "10.0.0.8:3333") }

/-- Server context with metadata but no peer information. -/
def exScMDNoPeer : Context :=
  { incomingMD := some [("k", ["v"])], outgoingMD := none, peer := none }

/-- Server context whose peer address has no port suffix. -/
def exScUnix : Context :=
  { incomingMD := none, outgoingMD := none, peer := some (Addr.other "noport") }

/-- A director that routes to backend 7, supplies a completion callback
but no cancellation function and no method override. -/
def exDirectorDone : StreamDirector := fun _ _ =>
  { clientCtx := exClientCtx, hasCancel := false,
    dir := { Method := "", BackendConn := 7, hasDone := true }, err := none }

/-- A director that supplies its own outgoing metadata, a cancellation
function and a method override. -/
def exDirectorOut : StreamDirector := fun _ _ =>
  { clientCtx := exCtxWithOutMD, hasCancel := true,
    dir := { Method := "/pkg.Svc/Other", BackendConn := 3, hasDone := true }, err := none }

/-- A director that rejects the call with a routing error. -/
def exDirectorReject : StreamDirector := fun _ _ =>
  { clientCtx := exClientCtx, hasCancel := false,
    dir := { Method := "", BackendConn := 0, hasDone := false },
    err := some (GoError.other "Unknown method") }

/-- Environment where `grpc.NewClientStream` fails. -/
def exEnvDialFail : Env :=
  { newClientStreamErr := some (GoError.other "dial failed"), biDirCopyErr := none }

/-- Environment where the relay ends with a plain `io.EOF`. -/
def exEnvRelayEof : Env :=
  { newClientStreamErr := none, biDirCopyErr := some GoError.eof }

/-! ### Helper lemmas -/

theorem string_eq_empty_of_length_zero (s : String) (h : s.length = 0) : s = "" := by
  cases s with
  | mk d =>
    cases d with
    | nil => rfl
    | cons a l => simp [String.length] at h

theorem string_length_ne_zero (s : String) (h : s ≠ "") : s.length ≠ 0 :=
  fun h0 => h (string_eq_empty_of_length_zero s h0)

theorem mdGet_mdAppendKey_self (md : MD) (k v : String) :
    mdGet (mdAppendKey md k v) k = some ((mdGet md k).getD [] ++ [v]) := by
  induction md with
  | nil => simp [mdAppendKey, mdGet]
  | cons p rest ih =>
    obtain ⟨k1, vs⟩ := p
    by_cases h : k1 = k
    · subst h
      simp [mdAppendKey, mdGet]
    · simp [mdAppendKey, mdGet, h, ih]

theorem mdGet_mdAppendKey_other (md : MD) (k v k2 : String) (h : k2 ≠ k) :
    mdGet (mdAppendKey md k v) k2 = mdGet md k2 := by
  induction md with
  | nil => simp [mdAppendKey, mdGet, Ne.symm h]
  | cons p rest ih =>
    obtain ⟨k1, vs⟩ := p
    by_cases h1 : k1 = k
    · subst h1
      simp [mdAppendKey, mdGet, Ne.symm h]
    · by_cases h2 : k1 = k2
      · subst h2
        simp [mdAppendKey, mdGet, h1]
      · simp [mdAppendKey, mdGet, h1, h2, ih]

theorem xForwardedFor_lower : lowerString XForwardedFor = "x-forwarded-for" := rfl

theorem lastIndexOfChar_eq_none (l : List Char) (c : Char) (h : c ∉ l) :
    lastIndexOfChar l c = none := by
  induction l with
  | nil => rfl
  | cons x xs ih =>
    simp only [List.mem_cons, not_or] at h
    unfold lastIndexOfChar
    rw [ih h.2]
    simp [Ne.symm h.1]

theorem lastIndexOfChar_append_cons (l1 l2 : List Char) (c : Char) (h : c ∉ l2) :
    lastIndexOfChar (l1 ++ c :: l2) c = some l1.length := by
  induction l1 with
  | nil =>
    show lastIndexOfChar (c :: l2) c = some 0
    unfold lastIndexOfChar
    rw [lastIndexOfChar_eq_none l2 c h]
    simp
  | cons x xs ih =>
    show lastIndexOfChar (x :: (xs ++ c :: l2)) c = some (xs.length + 1)
    unfold lastIndexOfChar
    rw [ih]

/-! ### Claim theorems on the Metadata Propagator -/

/-- C4: with inbound metadata present and a derivable caller address,
`CopyMetadata` attaches the copied metadata with the caller IP appended
(not replacing) under the forwarded-address key, all other keys kept. -/
theorem forwarded_for_appended (ctx sc : Context) (md : MD)
    (h1 : sc.incomingMD = some md) (h2 : RemoteIp sc ≠ "") :
    ∃ md2, (CopyMetadata ctx sc).outgoingMD = some md2 ∧
      mdGet md2 "x-forwarded-for"
        = some ((mdGet md "x-forwarded-for").getD [] ++ [RemoteIp sc]) ∧
      ∀ k, k ≠ "x-forwarded-for" → mdGet md2 k = mdGet md k := by
  have hlen : (RemoteIp sc).length ≠ 0 := string_length_ne_zero _ h2
  obtain ⟨inc, out, pr⟩ := sc
  have h1' : inc = some md := h1
  subst h1'
  refine ⟨mdAppend md XForwardedFor (RemoteIp ⟨some md, out, pr⟩), ?_, ?_, ?_⟩
  · show (newOutgoingContext ctx
      (if (RemoteIp ⟨some md, out, pr⟩).length ≠ 0
        then mdAppend (mdCopy md) XForwardedFor (RemoteIp ⟨some md, out, pr⟩)
        else mdCopy md)).outgoingMD = _
    rw [if_pos hlen]
    rfl
  · rw [mdAppend, xForwardedFor_lower]
    exact mdGet_mdAppendKey_self md _ _
  · intro k hk
    rw [mdAppend, xForwardedFor_lower]
    exact mdGet_mdAppendKey_other md _ _ k hk

/-- C5: `RemoteIp` yields the empty string without peer information, the
IP literal for an IPv4/IPv6 socket (TCP) address, and otherwise the peer
address with any port suffix (the part after the last colon) stripped —
the whole address when it has no colon. -/
theorem remote_ip_spec (ctx : Context) (ip s pre post : String) (p : Nat) :
    (ctx.peer = none → RemoteIp ctx = "") ∧
    (ctx.peer = some (Addr.tcp ip p) → RemoteIp ctx = ip) ∧
    (ctx.peer = some (Addr.other s) → ':' ∉ s.data → RemoteIp ctx = s) ∧
    (ctx.peer = some (Addr.other (pre ++ ":" ++ post)) → ':' ∉ post.data →
      RemoteIp ctx = pre) := by
  obtain ⟨inc, out, pr⟩ := ctx
  refine ⟨?_, ?_, ?_, ?_⟩
  · intro hp
    have hp' : pr = none := hp
    subst hp'
    rfl
  · intro hp
    have hp' : pr = some (Addr.tcp ip p) := hp
    subst hp'
    rfl
  · intro hp hc
    have hp' : pr = some (Addr.other s) := hp
    subst hp'
    show (match stringLastIndex s ':' with
      | none => s
      | some i => stringTake s i) = s
    rw [stringLastIndex, lastIndexOfChar_eq_none s.data ':' hc]
  · intro hp hc
    have hp' : pr = some (Addr.other (pre ++ ":" ++ post)) := hp
    subst hp'
    have hdata : (pre ++ ":" ++ post).data = pre.data ++ ':' :: post.data := by
      simp [String.data_append]
    have hlast : stringLastIndex (pre ++ ":" ++ post) ':' = some pre.length := by
      rw [stringLastIndex, hdata]
      exact lastIndexOfChar_append_cons pre.data post.data ':' hc
    show (match stringLastIndex (pre ++ ":" ++ post) ':' with
      | none => pre ++ ":" ++ post
      | some i => stringTake (pre ++ ":" ++ post) i) = pre
    rw [hlast]
    show stringTake (pre ++ ":" ++ post) pre.length = pre
    rw [stringTake, hdata]
    exact congrArg String.mk (List.take_left pre.data (':' :: post.data))

/-- C8: without inbound metadata, `CopyMetadata` attaches only the
forwarded-address pair when a caller address is derivable, and returns
the outgoing context unchanged when none is. -/
theorem copy_metadata_no_incoming (ctx sc : Context) (h1 : sc.incomingMD = none) :
    (RemoteIp sc ≠ "" →
      CopyMetadata ctx sc = newOutgoingContext ctx [("x-forwarded-for", [RemoteIp sc])]) ∧
    (RemoteIp sc = "" → CopyMetadata ctx sc = ctx) := by
  obtain ⟨inc, out, pr⟩ := sc
  have h1' : inc = none := h1
  subst h1'
  constructor
  · intro hr
    have hlen : (RemoteIp ⟨none, out, pr⟩).length ≠ 0 := string_length_ne_zero _ hr
    show (if (RemoteIp ⟨none, out, pr⟩).length = 0 then ctx
      else newOutgoingContext ctx (mdPairs XForwardedFor (RemoteIp ⟨none, out, pr⟩))) = _
    rw [if_neg hlen]
    rfl
  · intro hr
    have hlen : (RemoteIp ⟨none, out, pr⟩).length = 0 := by rw [hr]; rfl
    show (if (RemoteIp ⟨none, out, pr⟩).length = 0 then ctx
      else newOutgoingContext ctx (mdPairs XForwardedFor (RemoteIp ⟨none, out, pr⟩))) = ctx
    rw [if_pos hlen]

/-- C10: with inbound metadata present but no derivable peer address,
`CopyMetadata` attaches an exact copy of the inbound metadata with no
forwarded-address entry appended; the inbound metadata itself is the
untouched `md` (`mdCopy md = md`). -/
theorem copy_metadata_no_peer (ctx sc : Context) (md : MD)
    (h1 : sc.incomingMD = some md) (h2 : RemoteIp sc = "") :
    CopyMetadata ctx sc = newOutgoingContext ctx md ∧ mdCopy md = md := by
  obtain ⟨inc, out, pr⟩ := sc
  have h1' : inc = some md := h1
  subst h1'
  refine ⟨?_, rfl⟩
  have hlen : ¬ (RemoteIp ⟨some md, out, pr⟩).length ≠ 0 := by
    rw [h2]
    simp
  show newOutgoingContext ctx
      (if (RemoteIp ⟨some md, out, pr⟩).length ≠ 0
        then mdAppend (mdCopy md) XForwardedFor (RemoteIp ⟨some md, out, pr⟩)
        else mdCopy md) = newOutgoingContext ctx md
  rw [if_neg hlen]
  rfl

/-! ### Helper lemmas on the handler core -/

theorem handlerCore_cancel (sc : Context) (m : String) (d : DirectorResult) (env : Env)
    (h1 : d.err = none) :
    (handlerCore sc m d env).cancelCalls = 1 ∧
    (handlerCore sc m d env).usedDerivedCancel = !d.hasCancel := by
  obtain ⟨cctx, hc, dir0, derr⟩ := d
  have h1' : derr = none := h1
  subst h1'
  obtain ⟨nse, bde⟩ := env
  cases nse <;> exact ⟨rfl, rfl⟩

theorem handlerCore_establishment (sc : Context) (m : String) (d : DirectorResult)
    (env : Env) (e : GoError)
    (h1 : d.err = none) (h2 : env.newClientStreamErr = some e) :
    (handlerCore sc m d env).ret = some e ∧
    (handlerCore sc m d env).doneCalledWith = none ∧
    (handlerCore sc m d env).relayRan = false := by
  obtain ⟨cctx, hc, dir0, derr⟩ := d
  have h1' : derr = none := h1
  subst h1'
  obtain ⟨nse, bde⟩ := env
  have h2' : nse = some e := h2
  subst h2'
  exact ⟨rfl, rfl, rfl⟩

theorem handlerCore_director_md (sc : Context) (m : String) (d : DirectorResult)
    (env : Env) (md : MD)
    (h1 : d.err = none) (h2 : d.clientCtx.outgoingMD = some md) :
    (handlerCore sc m d env).openedCtx = some d.clientCtx := by
  obtain ⟨cctx, hc, dir0, derr⟩ := d
  have h1' : derr = none := h1
  subst h1'
  obtain ⟨inc, out, pr⟩ := cctx
  have h2' : out = some md := h2
  subst h2'
  obtain ⟨nse, bde⟩ := env
  cases nse <;> rfl

theorem handlerCore_eof (sc : Context) (m : String) (d : DirectorResult) (env : Env)
    (h1 : d.err = none) (h2 : env.newClientStreamErr = none)
    (h3 : env.biDirCopyErr = some GoError.eof) :
    (handlerCore sc m d env).ret = none ∧
    (d.dir.hasDone = true → (handlerCore sc m d env).doneCalledWith = some none) := by
  obtain ⟨cctx, hc, ⟨mo, conn, hd⟩, derr⟩ := d
  have h1' : derr = none := h1
  subst h1'
  obtain ⟨nse, bde⟩ := env
  have h2' : nse = none := h2
  subst h2'
  have h3' : bde = some GoError.eof := h3
  subst h3'
  refine ⟨rfl, ?_⟩
  intro hdone
  have hd' : hd = true := hdone
  subst hd'
  rfl

theorem handlerCore_routing_error (sc : Context) (m : String) (d : DirectorResult)
    (env : Env) (e : GoError) (h1 : d.err = some e) :
    (handlerCore sc m d env).ret = some e ∧
    (handlerCore sc m d env).openedCtx = none ∧
    (handlerCore sc m d env).openedConn = none ∧
    (handlerCore sc m d env).openedMethod = none ∧
    (handlerCore sc m d env).relayRan = false ∧
    (handlerCore sc m d env).doneCalledWith = none := by
  obtain ⟨cctx, hc, dir0, derr⟩ := d
  have h1' : derr = some e := h1
  subst h1'
  exact ⟨rfl, rfl, rfl, rfl, rfl, rfl⟩

theorem handlerCore_method (sc : Context) (m : String) (d : DirectorResult) (env : Env)
    (h1 : d.err = none) :
    (d.dir.Method = "" → (handlerCore sc m d env).openedMethod = some m) ∧
    (d.dir.Method ≠ "" →
      (handlerCore sc m d env).openedMethod = some d.dir.Method) := by
  obtain ⟨cctx, hc, ⟨mo, conn, hd⟩, derr⟩ := d
  have h1' : derr = none := h1
  subst h1'
  obtain ⟨nse, bde⟩ := env
  constructor
  · intro hm
    have hm' : mo = "" := hm
    subst hm'
    cases nse <;> rfl
  · intro hm
    have hlen : mo.length ≠ 0 := string_length_ne_zero mo hm
    cases nse with
    | some e =>
      show some (if mo.length ≠ 0 then mo else m) = some mo
      rw [if_pos hlen]
    | none =>
      show some (if mo.length ≠ 0 then mo else m) = some mo
      rw [if_pos hlen]

/-! ### Claim theorems on the handler -/

/-- C1 (counterexample): the claim is false as stated — with a Routing
Decision carrying a completion callback and an outbound stream that
cannot be opened, the handler returns the establishment error but never
invokes `dir.Done`, so the callback is not invoked with that error. -/
theorem establishment_error_done_counterexample :
    (exDirectorDone exServerCtx "/svc/M").err = none ∧
    (exDirectorDone exServerCtx "/svc/M").dir.hasDone = true ∧
    exEnvDialFail.newClientStreamErr = some (GoError.other "dial failed") ∧
    (handler exServerCtx "/svc/M" exDirectorDone exEnvDialFail).ret
      = some (GoError.other "dial failed") ∧
    ¬ (handler exServerCtx "/svc/M" exDirectorDone exEnvDialFail).doneCalledWith
      = some (some (GoError.other "dial failed")) :=
  ⟨rfl, rfl, rfl, rfl, by decide⟩

/-- C1 (amended): if the Director returns a Routing Decision but the
outbound client stream cannot be opened, the handler surfaces the
establishment error as the call's terminal status; the Director's
completion callback is not invoked on this path (it only runs after the
relay phase), and no frame is relayed. -/
theorem establishment_error_terminal (sc : Context) (m : String)
    (director : StreamDirector) (env : Env) (e : GoError)
    (h1 : (director sc m).err = none) (h2 : env.newClientStreamErr = some e) :
    (handler sc m director env).ret = some e ∧
    (handler sc m director env).doneCalledWith = none ∧
    (handler sc m director env).relayRan = false :=
  handlerCore_establishment sc m (director sc m) env e h1 h2

theorem establishment_error_terminal_witness :
    (handler exServerCtx "/svc/M" exDirectorDone exEnvDialFail).ret
      = some (GoError.other "dial failed") ∧
    (handler exServerCtx "/svc/M" exDirectorDone exEnvDialFail).doneCalledWith = none ∧
    (handler exServerCtx "/svc/M" exDirectorDone exEnvDialFail).relayRan = false :=
  establishment_error_terminal exServerCtx "/svc/M" exDirectorDone exEnvDialFail
    (GoError.other "dial failed") rfl rfl

/-- C2: when the Director returns a Routing Decision (no routing error),
the effective cancellation function — the Director-supplied one, or the
one the core derives exactly when the Director supplied none — has run
exactly once by the time the handler returns, on every exit path. -/
theorem cancel_invoked_exactly_once (sc : Context) (m : String)
    (director : StreamDirector) (env : Env)
    (h1 : (director sc m).err = none) :
    (handler sc m director env).cancelCalls = 1 ∧
    (handler sc m director env).usedDerivedCancel = !(director sc m).hasCancel :=
  handlerCore_cancel sc m (director sc m) env h1

theorem cancel_invoked_exactly_once_witness :
    ((handler exServerCtx "/svc/M" exDirectorDone exEnvRelayEof).cancelCalls = 1 ∧
      (handler exServerCtx "/svc/M" exDirectorDone exEnvRelayEof).usedDerivedCancel
        = !(exDirectorDone exServerCtx "/svc/M").hasCancel) ∧
    ((handler exServerCtx "/svc/M" exDirectorDone exEnvDialFail).cancelCalls = 1 ∧
      (handler exServerCtx "/svc/M" exDirectorDone exEnvDialFail).usedDerivedCancel
        = !(exDirectorDone exServerCtx "/svc/M").hasCancel) :=
  ⟨cancel_invoked_exactly_once exServerCtx "/svc/M" exDirectorDone exEnvRelayEof rfl,
   cancel_invoked_exactly_once exServerCtx "/svc/M" exDirectorDone exEnvDialFail rfl⟩

/-- C3: when the context returned by the Director already carries
outgoing metadata, default propagation is skipped entirely: the stream
is opened on exactly the Director's context — nothing added, nothing
merged, no forwarded-address entry. -/
theorem director_metadata_wins (sc : Context) (m : String)
    (director : StreamDirector) (env : Env) (md : MD)
    (h1 : (director sc m).err = none)
    (h2 : (director sc m).clientCtx.outgoingMD = some md) :
    (handler sc m director env).openedCtx = some (director sc m).clientCtx :=
  handlerCore_director_md sc m (director sc m) env md h1 h2

theorem director_metadata_wins_witness :
    (handler exServerCtx "/svc/M" exDirectorOut exEnvRelayEof).openedCtx
      = some (exDirectorOut exServerCtx "/svc/M").clientCtx :=
  director_metadata_wins exServerCtx "/svc/M" exDirectorOut exEnvRelayEof
    [("a", ["b"])] rfl rfl

/-- C6: a plain `io.EOF` from the relay phase is normalized to no error:
the handler returns no error and, when a completion callback was
supplied, passes nil to it. -/
theorem eof_normalized_to_nil (sc : Context) (m : String)
    (director : StreamDirector) (env : Env)
    (h1 : (director sc m).err = none) (h2 : env.newClientStreamErr = none)
    (h3 : env.biDirCopyErr = some GoError.eof) :
    (handler sc m director env).ret = none ∧
    ((director sc m).dir.hasDone = true →
      (handler sc m director env).doneCalledWith = some none) :=
  handlerCore_eof sc m (director sc m) env h1 h2 h3

theorem eof_normalized_to_nil_witness :
    (handler exServerCtx "/svc/M" exDirectorDone exEnvRelayEof).ret = none ∧
    (handler exServerCtx "/svc/M" exDirectorDone exEnvRelayEof).doneCalledWith
      = some none :=
  ⟨(eof_normalized_to_nil exServerCtx "/svc/M" exDirectorDone exEnvRelayEof
      rfl rfl rfl).1,
   (eof_normalized_to_nil exServerCtx "/svc/M" exDirectorDone exEnvRelayEof
      rfl rfl rfl).2 rfl⟩

/-- C7: a routing error from the Director fails the call immediately
with that error; no outbound stream is opened, no frame is relayed, and
the completion callback is not invoked. -/
theorem routing_error_immediate (sc : Context) (m : String)
    (director : StreamDirector) (env : Env) (e : GoError)
    (h1 : (director sc m).err = some e) :
    (handler sc m director env).ret = some e ∧
    (handler sc m director env).openedCtx = none ∧
    (handler sc m director env).openedConn = none ∧
    (handler sc m director env).openedMethod = none ∧
    (handler sc m director env).relayRan = false ∧
    (handler sc m director env).doneCalledWith = none :=
  handlerCore_routing_error sc m (director sc m) env e h1

theorem routing_error_immediate_witness :
    (handler exServerCtx "/int/M" exDirectorReject exEnvRelayEof).ret
      = some (GoError.other "Unknown method") ∧
    (handler exServerCtx "/int/M" exDirectorReject exEnvRelayEof).openedCtx = none ∧
    (handler exServerCtx "/int/M" exDirectorReject exEnvRelayEof).openedConn = none ∧
    (handler exServerCtx "/int/M" exDirectorReject exEnvRelayEof).openedMethod = none ∧
    (handler exServerCtx "/int/M" exDirectorReject exEnvRelayEof).relayRan = false ∧
    (handler exServerCtx "/int/M" exDirectorReject exEnvRelayEof).doneCalledWith = none :=
  routing_error_immediate exServerCtx "/int/M" exDirectorReject exEnvRelayEof
    (GoError.other "Unknown method") rfl

/-- C9: the outbound stream is opened with the Routing Decision's
method-name override when that field is non-empty, and with the original
inbound method name when it is empty. -/
theorem method_override_used (sc : Context) (m : String)
    (director : StreamDirector) (env : Env)
    (h1 : (director sc m).err = none) :
    ((director sc m).dir.Method = "" →
      (handler sc m director env).openedMethod = some m) ∧
    ((director sc m).dir.Method ≠ "" →
      (handler sc m director env).openedMethod = some (director sc m).dir.Method) :=
  handlerCore_method sc m (director sc m) env h1

theorem method_override_used_witness :
    (handler exServerCtx "/svc/M" exDirectorDone exEnvRelayEof).openedMethod
      = some "/svc/M" ∧
    (handler exServerCtx "/svc/M" exDirectorOut exEnvRelayEof).openedMethod
      = some "/pkg.Svc/Other" :=
  ⟨(method_override_used exServerCtx "/svc/M" exDirectorDone exEnvRelayEof rfl).1 rfl,
   (method_override_used exServerCtx "/svc/M" exDirectorOut exEnvRelayEof rfl).2
     (by decide)⟩

/-! ### Witnesses for the Metadata Propagator claims -/

theorem forwarded_for_appended_witness :
    (CopyMetadata exClientCtx exServerCtx).outgoingMD
      = some [("k", ["v"]), ("x-forwarded-for", ["203.0.113.5"])] ∧
    (∃ md2, (CopyMetadata exClientCtx exServerCtx).outgoingMD = some md2 ∧
      mdGet md2 "x-forwarded-for"
        = some ((mdGet [("k", ["v"])] "x-forwarded-for").getD []
            ++ [RemoteIp exServerCtx]) ∧
      ∀ k, k ≠ "x-forwarded-for" → mdGet md2 k = mdGet [("k", ["v"])] k) :=
  ⟨rfl, forwarded_for_appended exClientCtx exServerCtx [("k", ["v"])] rfl (by decide)⟩

theorem remote_ip_spec_witness :
    RemoteIp exClientCtx = "" ∧
    RemoteIp exServerCtx = "203.0.113.5" ∧
    RemoteIp exScUnix = "noport" ∧
    RemoteIp exScPeerOnly = "10.0.0.8" :=
  ⟨(remote_ip_spec exClientCtx "" "" "" "" 0).1 rfl,
   (remote_ip_spec exServerCtx "203.0.113.5" "" "" "" 54321).2.1 rfl,
   (remote_ip_spec exScUnix "" "noport" "" "" 0).2.2.1 rfl (by decide),
   (remote_ip_spec exScPeerOnly "" "" "10.0.0.8" "3333" 0).2.2.2 (by decide) (by decide)⟩

theorem copy_metadata_no_incoming_witness :
    CopyMetadata exClientCtx exScPeerOnly
      = newOutgoingContext exClientCtx [("x-forwarded-for", [RemoteIp exScPeerOnly])] ∧
    CopyMetadata exClientCtx exClientCtx = exClientCtx :=
  ⟨(copy_metadata_no_incoming exClientCtx exScPeerOnly rfl).1 (by decide),
   (copy_metadata_no_incoming exClientCtx exClientCtx rfl).2 rfl⟩

theorem copy_metadata_no_peer_witness :
    CopyMetadata exClientCtx exScMDNoPeer
      = newOutgoingContext exClientCtx [("k", ["v"])] ∧
    mdCopy [("k", ["v"])] = [("k", ["v"])] :=
  copy_metadata_no_peer exClientCtx exScMDNoPeer [("k", ["v"])] rfl rfl

end GrpcProxy
